import Mathlib

/-!
Shallow embedding of the business logic of the `fastapi_ecommerce` repository:
the category / product / review routers (`app/routers/categories.py`,
`app/routers/products.py`, `app/routers/reviews.py`) over an explicit
database state.  SQLAlchemy tables become lists of records, `db.scalar(select
... where ...)` becomes `List.find?`, SQL `UPDATE ... WHERE` becomes a
`List.map` guarded by the row predicate, and a raised `HTTPException` becomes
an `Except` error carrying the status code and detail string of the source.
Ratings (SQL `AVG` over integer grades) are modelled exactly with `Rat`.
-/

/-- Review row, from `app/models/reviews.py` (`comment_date` timestamps are
abstracted to a number). -/
structure Review where
  id : Nat
  user_id : Nat
  product_id : Nat
  comment : Option String
  comment_date : Nat
  grade : Int
  is_active : Bool
deriving Repr, DecidableEq

/-- Modelled from the spec: `app/models/categories.py` is not in the sources;
the spec's data model gives a category id, name, optional self-referential
parent reference and `is_active` flag, matching the columns the routers use. -/
structure Category where
  id : Nat
  name : String
  parent_id : Option Nat
  is_active : Bool
deriving Repr, DecidableEq

/-- Modelled from the spec: `app/models/products.py` is not in the sources;
the spec's data model gives id, name, description, price, category reference,
seller reference (owner), derived rating defaulting to 0, and `is_active`,
matching the columns the routers use. -/
structure Product where
  id : Nat
  name : String
  description : String
  price : Rat
  category_id : Nat
  seller_id : Nat
  rating : Rat
  is_active : Bool
deriving Repr, DecidableEq

/-- The relational store: one list per table. -/
structure DB where
  categories : List Category
  products : List Product
  reviews : List Review
deriving Repr, DecidableEq

/-- A raised `HTTPException` (status code and detail string), or an unhandled
fault (e.g. attribute access on a `None` result), surfaced generically. -/
inductive ApiErr where
  | http (statusCode : Nat) (detail : String)
  | internalFault
deriving Repr, DecidableEq

/-- Transaction semantics of a handler: an `.ok` result commits the new
state, any raised error aborts the operation and leaves the state unchanged. -/
def applyOp (db : DB) (r : Except ApiErr DB) : DB :=
  match r with
  | .ok db2 => db2
  | .error _ => db

/-- Modelled from the spec: `app/schemas.py` is not in the sources.  The
`CategoryCreate` payload carries a required name and an optional parent id;
`parent_id_given` records whether the field was present in the request
(pydantic `exclude_unset` semantics used by `update_category`; an absent
field has the default value `none`). -/
structure CategoryCreate where
  name : String
  parent_id : Option Nat
  parent_id_given : Bool
deriving Repr, DecidableEq

/-- Modelled from the spec: `app/schemas.py` is not in the sources.  The
`ProductCreate` payload carries the client-mutable product fields only: name,
description, price and category reference.  Per the spec the rating is
derived and never set directly by a client, and the seller is taken from the
authenticated user, so neither is part of the payload. -/
structure ProductCreate where
  name : String
  description : String
  price : Rat
  category_id : Nat
deriving Repr, DecidableEq

/-- Modelled from the spec: `app/schemas.py` is not in the sources.  The
`ReviewCreate` payload carries the product reference, optional comment and
integer grade; the author is taken from the authenticated buyer. -/
structure ReviewCreate where
  product_id : Nat
  comment : Option String
  grade : Int
deriving Repr, DecidableEq

/-- `create_category` (`categories.py`): if a parent id is given, require an
active category with that id, else 400 "Parent category not found"; then
insert the new row (fresh `newId`, active by default). -/
def create_category (db : DB) (newId : Nat) (category : CategoryCreate) :
    Except ApiErr DB :=
  let insert : DB :=
    { db with categories :=
        db.categories ++ [⟨newId, category.name, category.parent_id, true⟩] }
  match category.parent_id with
  | some pid =>
      match db.categories.find? (fun k => k.id == pid && k.is_active) with
      | none => .error (.http 400 "Parent category not found")
      | some _ => .ok insert
  | none => .ok insert

/-- `update_category` (`categories.py`): 404 if no active category with the
target id; if a parent id is given, 400 "Parent category not found" unless an
active category with that id exists, and 400 "Category cannot be its own
parent" if that parent is the target itself; then
`UPDATE ... WHERE id = category_id` with the fields present in the payload
(`exclude_unset`: the parent reference is written only when it was given). -/
def update_category (db : DB) (category_id : Nat) (category : CategoryCreate) :
    Except ApiErr DB :=
  match db.categories.find? (fun k => k.id == category_id && k.is_active) with
  | none => .error (.http 404 "Category not found")
  | some _ =>
    let apply : DB :=
      { db with categories := db.categories.map (fun k =>
          if k.id == category_id then
            { k with
              name := category.name
              parent_id :=
                if category.parent_id_given then category.parent_id
                else k.parent_id }
          else k) }
    match category.parent_id with
    | none => .ok apply
    | some pid =>
      match db.categories.find? (fun k => k.id == pid && k.is_active) with
      | none => .error (.http 400 "Parent category not found")
      | some parent =>
        if parent.id == category_id then
          .error (.http 400 "Category cannot be its own parent")
        else .ok apply

/-- `delete_category` (`categories.py`): 404 if no active category with the
id; else `UPDATE ... WHERE id = category_id SET is_active = False`. -/
def delete_category (db : DB) (category_id : Nat) : Except ApiErr DB :=
  match db.categories.find? (fun k => k.id == category_id && k.is_active) with
  | none => .error (.http 404 "Category not found")
  | some _ =>
    .ok { db with categories := db.categories.map (fun k =>
            if k.id == category_id then { k with is_active := false } else k) }

/-- `create_product` (`products.py`): 400 "Category not found" unless an
active category with the payload's category id exists; then insert the new
product owned by the current seller (fresh `newId`, rating defaulting to 0,
active by default). -/
def create_product (db : DB) (newId : Nat) (product : ProductCreate)
    (current_user_id : Nat) : Except ApiErr DB :=
  match db.categories.find?
      (fun k => k.id == product.category_id && k.is_active) with
  | none => .error (.http 400 "Category not found")
  | some _ =>
    .ok { db with products := db.products ++
      [⟨newId, product.name, product.description, product.price,
        product.category_id, current_user_id, 0, true⟩] }

/-- `get_products_by_category` (`products.py`): 400 "Category not found"
unless an active category with the id exists; else the active products with
that category id. -/
def get_products_by_category (db : DB) (category_id : Nat) :
    Except ApiErr (List Product) :=
  match db.categories.find? (fun k => k.id == category_id && k.is_active) with
  | none => .error (.http 400 "Category not found")
  | some _ =>
    .ok (db.products.filter
      (fun q => q.category_id == category_id && q.is_active))

/-- `update_product` (`products.py`): the target lookup filters by id only
(no `is_active` condition in the source); 404 if absent, 403 if the current
seller is not the owner, 400 "Category not found" unless the payload's
category is active; then `UPDATE ... WHERE id = product_id` overwriting the
payload fields. -/
def update_product (db : DB) (product_id : Nat) (product : ProductCreate)
    (current_user_id : Nat) : Except ApiErr DB :=
  match db.products.find? (fun q => q.id == product_id) with
  | none => .error (.http 404 "Product not found")
  | some db_product =>
    if db_product.seller_id != current_user_id then
      .error (.http 403 "You can only update your own products")
    else
      match db.categories.find?
          (fun k => k.id == product.category_id && k.is_active) with
      | none => .error (.http 400 "Category not found")
      | some _ =>
        .ok { db with products := db.products.map (fun q =>
          if q.id == product_id then
            { q with
              name := product.name
              description := product.description
              price := product.price
              category_id := product.category_id }
          else q) }

/-- `delete_product` (`products.py`): 404 if no active product with the id,
403 if the current seller is not the owner; else
`UPDATE ... WHERE id = product_id SET is_active = False`. -/
def delete_product (db : DB) (product_id : Nat) (current_user_id : Nat) :
    Except ApiErr DB :=
  match db.products.find? (fun q => q.id == product_id && q.is_active) with
  | none => .error (.http 404 "Product not found")
  | some product =>
    if product.seller_id != current_user_id then
      .error (.http 403 "You can only delete your own products")
    else
      .ok { db with products := db.products.map (fun q =>
        if q.id == product_id then { q with is_active := false } else q) }

/-- The grades of the active reviews of a product, as selected by
`update_product_rating`'s `WHERE product_id = ... AND is_active` clause. -/
def activeGrades (reviews : List Review) (product_id : Nat) : List Int :=
  (reviews.filter (fun r => r.product_id == product_id && r.is_active)).map
    (fun r => r.grade)

/-- The value `update_product_rating` writes: `AVG(grade)` over the active
reviews of the product, with `result.scalar() or 0.0` mapping both a missing
average (no rows) and a zero average to 0. -/
def computedRating (reviews : List Review) (product_id : Nat) : Rat :=
  let gs := activeGrades reviews product_id
  if gs.isEmpty then 0
  else
    let m : Rat := (gs.map (fun g => (g : Rat))).sum / (gs.length : Rat)
    if m = 0 then 0 else m

/-- `update_product_rating` (`reviews.py`): average the grades of the
product's active reviews (`or 0.0`), fetch the product by primary key and
write the average to its rating.  A missing product makes the source crash on
`product.rating = ...` (attribute on `None`), modelled as an internal fault. -/
def update_product_rating (db : DB) (product_id : Nat) : Except ApiErr DB :=
  match db.products.find? (fun q => q.id == product_id) with
  | none => .error .internalFault
  | some _ =>
    .ok { db with products := db.products.map (fun q =>
      if q.id == product_id then
        { q with rating := computedRating db.reviews product_id }
      else q) }

/-- `create_review` (`reviews.py`): 404 unless an active product with the
payload's product id exists; 400 "The grade should be in the range from 1 to
5" if the grade is out of range; else insert the review authored by the
current buyer (fresh `newId`, active by default, timestamped `now`) and
recompute the product's rating. -/
def create_review (db : DB) (newId : Nat) (now : Nat) (review : ReviewCreate)
    (current_user_id : Nat) : Except ApiErr DB :=
  match db.products.find?
      (fun q => q.id == review.product_id && q.is_active) with
  | none => .error (.http 404 "Product not found")
  | some db_product =>
    if review.grade < 1 ∨ review.grade > 5 then
      .error (.http 400 "The grade should be in the range from 1 to 5")
    else
      let db1 : DB :=
        { db with reviews := db.reviews ++
            [⟨newId, current_user_id, review.product_id, review.comment, now,
              review.grade, true⟩] }
      update_product_rating db1 db_product.id

/-- `delete_review` (`reviews.py`): 404 if no active review with the id;
else `UPDATE ... WHERE id = review_id SET is_active = False` and recompute
the rating of the review's product. -/
def delete_review (db : DB) (review_id : Nat) : Except ApiErr DB :=
  match db.reviews.find? (fun r => r.id == review_id && r.is_active) with
  | none => .error (.http 404 "Review not found")
  | some review =>
    let db1 : DB :=
      { db with reviews := db.reviews.map (fun r =>
          if r.id == review_id then { r with is_active := false } else r) }
    update_product_rating db1 review.product_id

/-- Well-formedness of the store: primary keys are unique per table and every
review's product reference exists (foreign-key constraints of the schema). -/
def DB.wf (db : DB) : Prop :=
  (db.categories.map (fun k => k.id)).Nodup ∧
  (db.products.map (fun q => q.id)).Nodup ∧
  (db.reviews.map (fun r => r.id)).Nodup ∧
  ∀ r ∈ db.reviews, ∃ p ∈ db.products, p.id = r.product_id

instance (db : DB) : Decidable db.wf := by
  unfold DB.wf; infer_instance

/-- The rating invariant of the spec: every product's stored rating is the
mean grade of its active reviews, or 0 when it has none. -/
def ratingInv (db : DB) : Prop :=
  ∀ p ∈ db.products, p.rating = computedRating db.reviews p.id

instance (db : DB) : Decidable (ratingInv db) := by
  unfold ratingInv; infer_instance

/-- The category invariant of the spec: no category is its own parent, and a
set parent reference points to a currently-active category. -/
def categoryInv (db : DB) : Prop :=
  ∀ c ∈ db.categories, ∀ pid, c.parent_id = some pid →
    pid ≠ c.id ∧ ∃ k ∈ db.categories, k.id = pid ∧ k.is_active = true

instance (db : DB) : Decidable (categoryInv db) := by
  unfold categoryInv; infer_instance

/-- The self-parent half of the category invariant on its own. -/
def selfParentFree (db : DB) : Prop :=
  ∀ c ∈ db.categories, ∀ pid, c.parent_id = some pid → pid ≠ c.id

instance (db : DB) : Decidable (selfParentFree db) := by
  unfold selfParentFree; infer_instance

/-! ### Helper lemmas -/

/-- With unique keys, `find?` on a key-determined predicate returns exactly
the member satisfying it. -/
theorem find?_eq_some_of_unique_key {α : Type} (f : α → Nat) (pred : α → Bool)
    (l : List α) (hnd : (l.map f).Nodup) (p : α) (hp : p ∈ l)
    (hpred : pred p = true) (hkey : ∀ q, pred q = true → f q = f p) :
    l.find? pred = some p := by
  induction l with
  | nil => cases hp
  | cons a tl ih =>
    rw [List.map_cons, List.nodup_cons] at hnd
    rcases List.mem_cons.mp hp with rfl | hptl
    · simp [List.find?_cons, hpred]
    · by_cases ha : pred a = true
      · exact absurd (hkey a ha ▸ List.mem_map_of_mem f hptl) hnd.1
      · rw [Bool.not_eq_true] at ha
        simp only [List.find?_cons, ha]
        exact ih hnd.2 hptl

theorem activeGrades_append_single (l : List Review) (r : Review) (pid : Nat)
    (h : r.product_id ≠ pid) :
    activeGrades (l ++ [r]) pid = activeGrades l pid := by
  unfold activeGrades
  rw [List.filter_append]
  have hb : (r.product_id == pid) = false := beq_eq_false_iff_ne.mpr h
  have hr : List.filter (fun x => x.product_id == pid && x.is_active) [r] = [] := by
    simp [List.filter, hb]
  rw [hr, List.append_nil]

/-- Deactivating the review(s) with key `rid`, all of which review product
`p0`, does not change the active grades of any other product. -/
theorem filter_map_deactivate (l : List Review) (rid p0 pid : Nat)
    (hall : ∀ r ∈ l, r.id = rid → r.product_id = p0) (hne : pid ≠ p0) :
    (l.map (fun r => if r.id == rid then { r with is_active := false } else r)).filter
        (fun r => r.product_id == pid && r.is_active)
      = l.filter (fun r => r.product_id == pid && r.is_active) := by
  induction l with
  | nil => rfl
  | cons a tl ih =>
    have ihtl := ih (fun r hr => hall r (List.mem_cons_of_mem a hr))
    rw [List.map_cons, List.filter_cons, List.filter_cons]
    by_cases ha : a.id = rid
    · have hpa : a.product_id = p0 := hall a (List.mem_cons_self a tl) ha
      have h1 : (a.product_id == pid) = false := by
        rw [hpa]; exact beq_eq_false_iff_ne.mpr (fun h => hne h.symm)
      simp only [ha, beq_self_eq_true, if_true, h1, Bool.false_and, if_false]
      exact ihtl
    · have ha2 : (a.id == rid) = false := beq_eq_false_iff_ne.mpr ha
      simp only [ha2, Bool.false_eq_true, if_false]
      by_cases hp : (a.product_id == pid && a.is_active) = true
      · simp only [hp, if_true, ihtl]
      · rw [Bool.not_eq_true] at hp
        simp only [hp, Bool.false_eq_true, if_false]
        exact ihtl

theorem activeGrades_deactivate (l : List Review) (rid p0 pid : Nat)
    (hall : ∀ r ∈ l, r.id = rid → r.product_id = p0) (hne : pid ≠ p0) :
    activeGrades (l.map (fun r => if r.id == rid then { r with is_active := false } else r)) pid
      = activeGrades l pid := by
  unfold activeGrades
  rw [filter_map_deactivate l rid p0 pid hall hne]

theorem computedRating_congr {l1 l2 : List Review} (pid : Nat)
    (h : activeGrades l1 pid = activeGrades l2 pid) :
    computedRating l1 pid = computedRating l2 pid := by
  unfold computedRating
  rw [h]

/-- A product with no active review has computed rating 0. -/
theorem computedRating_eq_zero (l : List Review) (pid : Nat)
    (h : ∀ r ∈ l, r.product_id = pid → r.is_active = false) :
    computedRating l pid = 0 := by
  have hg : activeGrades l pid = [] := by
    unfold activeGrades
    rw [List.filter_eq_nil_iff.mpr ?_, List.map_nil]
    intro r hr
    by_cases hp : r.product_id = pid
    · simp [h r hr hp]
    · simp [hp]
  unfold computedRating
  rw [hg]
  rfl

/-- A products-table rewrite that keeps every row's key and rating keeps the
rating invariant. -/
theorem ratingInv_map_products (db : DB) (hinv : ratingInv db)
    (f : Product → Product)
    (hf : ∀ q, (f q).id = q.id ∧ (f q).rating = q.rating) :
    ratingInv { db with products := db.products.map f } := by
  intro p hp
  rcases List.mem_map.mp hp with ⟨q, hq, rfl⟩
  rcases hf q with ⟨hid, hr⟩
  show (f q).rating = computedRating db.reviews (f q).id
  rw [hid, hr]
  exact hinv q hq

/-- After `update_product_rating db1 pid`, the rating invariant holds
provided it already held in `db1` for every product other than `pid`. -/
theorem ratingInv_update_product_rating (db1 : DB) (pid : Nat) (db2 : DB)
    (hok : update_product_rating db1 pid = .ok db2)
    (hrest : ∀ q ∈ db1.products, q.id ≠ pid →
      q.rating = computedRating db1.reviews q.id) :
    ratingInv db2 := by
  unfold update_product_rating at hok
  cases hfind : db1.products.find? (fun q => q.id == pid) with
  | none => rw [hfind] at hok; cases hok
  | some q0 =>
    rw [hfind] at hok
    cases hok
    intro p hp
    rcases List.mem_map.mp hp with ⟨q, hq, rfl⟩
    by_cases hqid : q.id = pid
    · simp only [hqid, beq_self_eq_true, if_true]
    · have hb : (q.id == pid) = false := beq_eq_false_iff_ne.mpr hqid
      simp only [hb, Bool.false_eq_true, if_false]
      exact hrest q hq hqid

/-! ### Success-shape lemmas: what each handler commits when it returns `.ok` -/

theorem create_category_ok_shape (db : DB) (newId : Nat) (c : CategoryCreate)
    (db2 : DB) (h : create_category db newId c = .ok db2) :
    db2 = { db with categories :=
        db.categories ++ [⟨newId, c.name, c.parent_id, true⟩] } ∧
    ∀ pid, c.parent_id = some pid →
      ∃ k ∈ db.categories, k.id = pid ∧ k.is_active = true := by
  unfold create_category at h
  cases hp : c.parent_id with
  | none =>
    rw [hp] at h
    dsimp only at h
    injection h with h2
    subst h2
    exact ⟨rfl, fun pid hpid => by cases hpid⟩
  | some pid0 =>
    rw [hp] at h
    dsimp only at h
    cases hf : db.categories.find? (fun k => k.id == pid0 && k.is_active) with
    | none => rw [hf] at h; cases h
    | some par =>
      rw [hf] at h
      dsimp only at h
      injection h with h2
      subst h2
      have hpred0 := List.find?_some hf
      simp only [Bool.and_eq_true, beq_iff_eq] at hpred0
      refine ⟨rfl, ?_⟩
      intro pid hpid
      injection hpid with h3
      subst h3
      exact ⟨par, List.mem_of_find?_eq_some hf, hpred0.1, hpred0.2⟩

theorem update_category_ok_shape (db : DB) (cid : Nat) (c : CategoryCreate)
    (db2 : DB) (h : update_category db cid c = .ok db2) :
    db2 = { db with categories := db.categories.map (fun k =>
        if k.id == cid then
          { k with
            name := c.name
            parent_id := if c.parent_id_given then c.parent_id else k.parent_id }
        else k) } ∧
    (∃ k ∈ db.categories, k.id = cid ∧ k.is_active = true) ∧
    ∀ pid, c.parent_id = some pid →
      pid ≠ cid ∧ ∃ k ∈ db.categories, k.id = pid ∧ k.is_active = true := by
  unfold update_category at h
  cases hf1 : db.categories.find? (fun k => k.id == cid && k.is_active) with
  | none => rw [hf1] at h; cases h
  | some tgt =>
    rw [hf1] at h
    dsimp only at h
    have hpred1 := List.find?_some hf1
    simp only [Bool.and_eq_true, beq_iff_eq] at hpred1
    have htgt : ∃ k ∈ db.categories, k.id = cid ∧ k.is_active = true :=
      ⟨tgt, List.mem_of_find?_eq_some hf1, hpred1.1, hpred1.2⟩
    cases hp : c.parent_id with
    | none =>
      rw [hp] at h
      dsimp only at h
      injection h with h2
      subst h2
      refine ⟨rfl, htgt, fun pid hpid => by cases hpid⟩
    | some pid0 =>
      rw [hp] at h
      dsimp only at h
      cases hf2 : db.categories.find? (fun k => k.id == pid0 && k.is_active) with
      | none => rw [hf2] at h; cases h
      | some par =>
        rw [hf2] at h
        dsimp only at h
        have hpred2 := List.find?_some hf2
        simp only [Bool.and_eq_true, beq_iff_eq] at hpred2
        by_cases hself : (par.id == cid) = true
        · rw [if_pos hself] at h; cases h
        · rw [if_neg hself] at h
          injection h with h2
          subst h2
          refine ⟨rfl, htgt, ?_⟩
          intro pid hpid
          injection hpid with h3
          subst h3
          have hne : pid0 ≠ cid := by
            intro hcontra
            exact hself (beq_iff_eq.mpr (hpred2.1 ▸ hcontra))
          exact ⟨hne, par, List.mem_of_find?_eq_some hf2, hpred2.1, hpred2.2⟩

theorem delete_category_ok_shape (db : DB) (cid : Nat) (db2 : DB)
    (h : delete_category db cid = .ok db2) :
    db2 = { db with categories := db.categories.map (fun k =>
        if k.id == cid then { k with is_active := false } else k) } ∧
    ∃ k ∈ db.categories, k.id = cid ∧ k.is_active = true := by
  unfold delete_category at h
  cases hf : db.categories.find? (fun k => k.id == cid && k.is_active) with
  | none => rw [hf] at h; cases h
  | some tgt =>
    rw [hf] at h
    dsimp only at h
    injection h with h2
    subst h2
    have hpred := List.find?_some hf
    simp only [Bool.and_eq_true, beq_iff_eq] at hpred
    exact ⟨rfl, tgt, List.mem_of_find?_eq_some hf, hpred.1, hpred.2⟩

theorem create_product_ok_shape (db : DB) (newId : Nat) (p : ProductCreate)
    (uid : Nat) (db2 : DB) (h : create_product db newId p uid = .ok db2) :
    db2 = { db with products := db.products ++
        [⟨newId, p.name, p.description, p.price, p.category_id, uid, 0, true⟩] } ∧
    ∃ k ∈ db.categories, k.id = p.category_id ∧ k.is_active = true := by
  unfold create_product at h
  cases hf : db.categories.find? (fun k => k.id == p.category_id && k.is_active) with
  | none => rw [hf] at h; cases h
  | some k0 =>
    rw [hf] at h
    dsimp only at h
    injection h with h2
    subst h2
    have hpred := List.find?_some hf
    simp only [Bool.and_eq_true, beq_iff_eq] at hpred
    exact ⟨rfl, k0, List.mem_of_find?_eq_some hf, hpred.1, hpred.2⟩

theorem update_product_ok_shape (db : DB) (pid : Nat) (p : ProductCreate)
    (uid : Nat) (db2 : DB) (h : update_product db pid p uid = .ok db2) :
    db2 = { db with products := db.products.map (fun q =>
        if q.id == pid then
          { q with
            name := p.name
            description := p.description
            price := p.price
            category_id := p.category_id }
        else q) } ∧
    (∃ k ∈ db.categories, k.id = p.category_id ∧ k.is_active = true) ∧
    ∃ q ∈ db.products, q.id = pid ∧ q.seller_id = uid := by
  unfold update_product at h
  cases hf1 : db.products.find? (fun q => q.id == pid) with
  | none => rw [hf1] at h; cases h
  | some q0 =>
    rw [hf1] at h
    dsimp only at h
    by_cases hown : (q0.seller_id != uid) = true
    · rw [if_pos hown] at h; cases h
    · rw [if_neg hown] at h
      rw [Bool.not_eq_true] at hown
      cases hf2 : db.categories.find? (fun k => k.id == p.category_id && k.is_active) with
      | none => rw [hf2] at h; cases h
      | some k0 =>
        rw [hf2] at h
        dsimp only at h
        injection h with h2
        subst h2
        have hpred1 := List.find?_some hf1
        simp only [beq_iff_eq] at hpred1
        have hpred2 := List.find?_some hf2
        simp only [Bool.and_eq_true, beq_iff_eq] at hpred2
        exact ⟨rfl, ⟨k0, List.mem_of_find?_eq_some hf2, hpred2.1, hpred2.2⟩,
          q0, List.mem_of_find?_eq_some hf1, hpred1,
          bne_eq_false_iff_eq.mp hown⟩

theorem delete_product_ok_shape (db : DB) (pid : Nat) (uid : Nat) (db2 : DB)
    (h : delete_product db pid uid = .ok db2) :
    db2 = { db with products := db.products.map (fun q =>
        if q.id == pid then { q with is_active := false } else q) } ∧
    ∃ q ∈ db.products, q.id = pid ∧ q.is_active = true ∧ q.seller_id = uid := by
  unfold delete_product at h
  cases hf : db.products.find? (fun q => q.id == pid && q.is_active) with
  | none => rw [hf] at h; cases h
  | some q0 =>
    rw [hf] at h
    dsimp only at h
    by_cases hown : (q0.seller_id != uid) = true
    · rw [if_pos hown] at h; cases h
    · rw [if_neg hown] at h
      rw [Bool.not_eq_true] at hown
      injection h with h2
      subst h2
      have hpred := List.find?_some hf
      simp only [Bool.and_eq_true, beq_iff_eq] at hpred
      exact ⟨rfl, q0, List.mem_of_find?_eq_some hf, hpred.1, hpred.2,
        bne_eq_false_iff_eq.mp hown⟩

theorem update_product_rating_ok_shape (db : DB) (pid : Nat) (db2 : DB)
    (h : update_product_rating db pid = .ok db2) :
    db2 = { db with products := db.products.map (fun q =>
        if q.id == pid then
          { q with rating := computedRating db.reviews pid }
        else q) } ∧
    ∃ q ∈ db.products, q.id = pid := by
  unfold update_product_rating at h
  cases hf : db.products.find? (fun q => q.id == pid) with
  | none => rw [hf] at h; cases h
  | some q0 =>
    rw [hf] at h
    dsimp only at h
    injection h with h2
    subst h2
    have hpred := List.find?_some hf
    simp only [beq_iff_eq] at hpred
    exact ⟨rfl, q0, List.mem_of_find?_eq_some hf, hpred⟩

theorem update_product_rating_ne_http (db : DB) (pid s : Nat) (d : String) :
    update_product_rating db pid ≠ .error (.http s d) := by
  unfold update_product_rating
  cases db.products.find? (fun q => q.id == pid) <;> simp

theorem create_review_ok_shape (db : DB) (newId now : Nat) (rv : ReviewCreate)
    (uid : Nat) (db2 : DB) (h : create_review db newId now rv uid = .ok db2) :
    db2 = { db with
      reviews := db.reviews ++
        [⟨newId, uid, rv.product_id, rv.comment, now, rv.grade, true⟩]
      products := db.products.map (fun q =>
        if q.id == rv.product_id then
          { q with
              rating := computedRating
                (db.reviews ++
                  [⟨newId, uid, rv.product_id, rv.comment, now, rv.grade, true⟩])
                rv.product_id }
        else q) } ∧
    (1 ≤ rv.grade ∧ rv.grade ≤ 5) ∧
    ∃ q ∈ db.products, q.id = rv.product_id ∧ q.is_active = true := by
  unfold create_review at h
  cases hf : db.products.find? (fun q => q.id == rv.product_id && q.is_active) with
  | none => rw [hf] at h; cases h
  | some q0 =>
    rw [hf] at h
    dsimp only at h
    have hpred := List.find?_some hf
    simp only [Bool.and_eq_true, beq_iff_eq] at hpred
    by_cases hg : rv.grade < 1 ∨ rv.grade > 5
    · rw [if_pos hg] at h; cases h
    · rw [if_neg hg] at h
      push_neg at hg
      obtain ⟨hshape, -⟩ := update_product_rating_ok_shape _ _ _ h
      refine ⟨?_, ⟨hg.1, hg.2⟩, q0, List.mem_of_find?_eq_some hf, hpred.1, hpred.2⟩
      rw [hshape, hpred.1]

theorem delete_review_ok_shape (db : DB) (rid : Nat) (db2 : DB)
    (h : delete_review db rid = .ok db2) :
    ∃ r0 ∈ db.reviews, r0.id = rid ∧ r0.is_active = true ∧
      db2 = { db with
        reviews := db.reviews.map (fun r =>
          if r.id == rid then { r with is_active := false } else r)
        products := db.products.map (fun q =>
          if q.id == r0.product_id then
            { q with
                rating := computedRating
                  (db.reviews.map (fun r =>
                    if r.id == rid then { r with is_active := false } else r))
                  r0.product_id }
          else q) } := by
  unfold delete_review at h
  cases hf : db.reviews.find? (fun r => r.id == rid && r.is_active) with
  | none => rw [hf] at h; cases h
  | some r0 =>
    rw [hf] at h
    dsimp only at h
    have hpred := List.find?_some hf
    simp only [Bool.and_eq_true, beq_iff_eq] at hpred
    obtain ⟨hshape, -⟩ := update_product_rating_ok_shape _ _ _ h
    exact ⟨r0, List.mem_of_find?_eq_some hf, hpred.1, hpred.2, by rw [hshape]⟩

/-! ### Claim theorems -/

/-- C4: for every active category C, `update_category` with a payload whose
`parent_id` equals C's own id fails with the self-reference error
(400, "Category cannot be its own parent") and the store is unchanged. -/
theorem claim_C4_self_parent_rejected (db : DB) (c : Category)
    (payload : CategoryCreate) (hc : c ∈ db.categories)
    (hact : c.is_active = true) (hpid : payload.parent_id = some c.id) :
    update_category db c.id payload =
      .error (.http 400 "Category cannot be its own parent") ∧
    applyOp db (update_category db c.id payload) = db := by
  obtain ⟨tgt, hfind⟩ : ∃ tgt,
      db.categories.find? (fun k => k.id == c.id && k.is_active) = some tgt :=
    Option.isSome_iff_exists.mp
      (List.find?_isSome.mpr ⟨c, hc, by simp [hact]⟩)
  have hpred := List.find?_some hfind
  simp only [Bool.and_eq_true] at hpred
  have herr : update_category db c.id payload =
      .error (.http 400 "Category cannot be its own parent") := by
    unfold update_category
    rw [hpid, hfind]
    dsimp only
    rw [hfind]
    dsimp only
    rw [if_pos hpred.1]
  exact ⟨herr, by rw [herr]; rfl⟩

/-- C5: a seller who does not own a product always gets 403 from both
`update_product` (regardless of payload) and `delete_product`, and the store
is unchanged. -/
theorem claim_C5_foreign_product_forbidden (db : DB) (p : Product)
    (payload : ProductCreate) (uid : Nat)
    (hnd : (db.products.map (fun q => q.id)).Nodup)
    (hp : p ∈ db.products) (hact : p.is_active = true)
    (hown : p.seller_id ≠ uid) :
    (update_product db p.id payload uid =
        .error (.http 403 "You can only update your own products") ∧
      applyOp db (update_product db p.id payload uid) = db) ∧
    (delete_product db p.id uid =
        .error (.http 403 "You can only delete your own products") ∧
      applyOp db (delete_product db p.id uid) = db) := by
  have hfu : db.products.find? (fun q => q.id == p.id) = some p :=
    find?_eq_some_of_unique_key (fun q => q.id) _ db.products hnd p hp
      (by simp) (fun q hq => beq_iff_eq.mp hq)
  have hfd : db.products.find? (fun q => q.id == p.id && q.is_active) = some p :=
    find?_eq_some_of_unique_key (fun q => q.id) _ db.products hnd p hp
      (by simp [hact]) (fun q hq => by
        simp only [Bool.and_eq_true, beq_iff_eq] at hq
        exact hq.1)
  have hbne : (p.seller_id != uid) = true := bne_iff_ne.mpr hown
  have h1 : update_product db p.id payload uid =
      .error (.http 403 "You can only update your own products") := by
    unfold update_product
    rw [hfu]
    dsimp only
    rw [if_pos hbne]
  have h2 : delete_product db p.id uid =
      .error (.http 403 "You can only delete your own products") := by
    unfold delete_product
    rw [hfd]
    dsimp only
    rw [if_pos hbne]
  exact ⟨⟨h1, by rw [h1]; rfl⟩, h2, by rw [h2]; rfl⟩

/-- C6: a review-creation request against an existing active product with a
grade outside [1,5] fails with the grade error (400) and the store is
unchanged (no review persisted, rating untouched). -/
theorem claim_C6_invalid_grade (db : DB) (newId now : Nat) (rv : ReviewCreate)
    (uid : Nat) (p : Product) (hp : p ∈ db.products)
    (hpid : p.id = rv.product_id) (hact : p.is_active = true)
    (hg : rv.grade < 1 ∨ rv.grade > 5) :
    create_review db newId now rv uid =
      .error (.http 400 "The grade should be in the range from 1 to 5") ∧
    applyOp db (create_review db newId now rv uid) = db := by
  obtain ⟨q0, hfind⟩ : ∃ q0, db.products.find?
      (fun q => q.id == rv.product_id && q.is_active) = some q0 :=
    Option.isSome_iff_exists.mp
      (List.find?_isSome.mpr ⟨p, hp, by simp [hpid, hact]⟩)
  have h1 : create_review db newId now rv uid =
      .error (.http 400 "The grade should be in the range from 1 to 5") := by
    unfold create_review
    rw [hfind]
    dsimp only
    rw [if_pos hg]
  exact ⟨h1, by rw [h1]; rfl⟩

/-- C7: `get_products_by_category` fails with the category-not-found error
when no active category has the requested id, and otherwise returns exactly
the active products whose category reference is that id. -/
theorem claim_C7_list_by_category (db : DB) (cid : Nat) :
    ((¬ ∃ k ∈ db.categories, k.id = cid ∧ k.is_active = true) →
      get_products_by_category db cid =
        .error (.http 400 "Category not found")) ∧
    ((∃ k ∈ db.categories, k.id = cid ∧ k.is_active = true) →
      ∃ ps, get_products_by_category db cid = .ok ps ∧
        ∀ p, p ∈ ps ↔
          p ∈ db.products ∧ p.category_id = cid ∧ p.is_active = true) := by
  constructor
  · intro hno
    have hnone : db.categories.find? (fun k => k.id == cid && k.is_active) = none := by
      rw [List.find?_eq_none]
      intro k hk hpred
      simp only [Bool.and_eq_true, beq_iff_eq] at hpred
      exact hno ⟨k, hk, hpred.1, hpred.2⟩
    unfold get_products_by_category
    rw [hnone]
  · rintro ⟨k, hk, hkid, hkact⟩
    obtain ⟨k0, hfind⟩ : ∃ k0,
        db.categories.find? (fun x => x.id == cid && x.is_active) = some k0 :=
      Option.isSome_iff_exists.mp
        (List.find?_isSome.mpr ⟨k, hk, by simp [hkid, hkact]⟩)
    refine ⟨db.products.filter (fun q => q.category_id == cid && q.is_active),
      ?_, ?_⟩
    · unfold get_products_by_category
      rw [hfind]
    · intro p
      rw [List.mem_filter]
      simp [Bool.and_eq_true, beq_iff_eq]

/-- C9: in `create_review` the product-existence check precedes the grade
check: a missing or inactive product always yields 404 regardless of grade,
and the grade error is only ever raised when an active product with the
requested id exists and the grade is out of range. -/
theorem claim_C9_product_check_precedes_grade (db : DB) (newId now : Nat)
    (rv : ReviewCreate) (uid : Nat) :
    ((¬ ∃ q ∈ db.products, q.id = rv.product_id ∧ q.is_active = true) →
      create_review db newId now rv uid =
        .error (.http 404 "Product not found")) ∧
    (create_review db newId now rv uid =
        .error (.http 400 "The grade should be in the range from 1 to 5") →
      (∃ q ∈ db.products, q.id = rv.product_id ∧ q.is_active = true) ∧
      (rv.grade < 1 ∨ rv.grade > 5)) := by
  constructor
  · intro hno
    have hnone : db.products.find?
        (fun q => q.id == rv.product_id && q.is_active) = none := by
      rw [List.find?_eq_none]
      intro q hq hpred
      simp only [Bool.and_eq_true, beq_iff_eq] at hpred
      exact hno ⟨q, hq, hpred.1, hpred.2⟩
    unfold create_review
    rw [hnone]
  · intro herr
    unfold create_review at herr
    cases hf : db.products.find? (fun q => q.id == rv.product_id && q.is_active) with
    | none =>
      rw [hf] at herr
      dsimp only at herr
      simp at herr
    | some q0 =>
      rw [hf] at herr
      dsimp only at herr
      have hpred := List.find?_some hf
      simp only [Bool.and_eq_true, beq_iff_eq] at hpred
      by_cases hg : rv.grade < 1 ∨ rv.grade > 5
      · exact ⟨⟨q0, List.mem_of_find?_eq_some hf, hpred.1, hpred.2⟩, hg⟩
      · rw [if_neg hg] at herr
        exact absurd herr (update_product_rating_ne_http _ _ _ _)

/-- Witness for C4 at a concrete one-category store. -/
theorem claim_C4_witness :
    update_category ⟨[⟨1, "a", none, true⟩], [], []⟩ 1 ⟨"a", some 1, true⟩ =
      .error (.http 400 "Category cannot be its own parent") ∧
    applyOp ⟨[⟨1, "a", none, true⟩], [], []⟩
      (update_category ⟨[⟨1, "a", none, true⟩], [], []⟩ 1 ⟨"a", some 1, true⟩) =
      ⟨[⟨1, "a", none, true⟩], [], []⟩ :=
  claim_C4_self_parent_rejected ⟨[⟨1, "a", none, true⟩], [], []⟩
    ⟨1, "a", none, true⟩ ⟨"a", some 1, true⟩ (by decide) (by decide) (by decide)

/-- Witness for C5: seller 2 touching seller 1's product. -/
theorem claim_C5_witness :
    (update_product ⟨[], [⟨1, "p", "d", 1, 1, 1, 0, true⟩], []⟩ 1 ⟨"n", "e", 2, 1⟩ 2 =
        .error (.http 403 "You can only update your own products") ∧
      applyOp ⟨[], [⟨1, "p", "d", 1, 1, 1, 0, true⟩], []⟩
        (update_product ⟨[], [⟨1, "p", "d", 1, 1, 1, 0, true⟩], []⟩ 1 ⟨"n", "e", 2, 1⟩ 2) =
        ⟨[], [⟨1, "p", "d", 1, 1, 1, 0, true⟩], []⟩) ∧
    (delete_product ⟨[], [⟨1, "p", "d", 1, 1, 1, 0, true⟩], []⟩ 1 2 =
        .error (.http 403 "You can only delete your own products") ∧
      applyOp ⟨[], [⟨1, "p", "d", 1, 1, 1, 0, true⟩], []⟩
        (delete_product ⟨[], [⟨1, "p", "d", 1, 1, 1, 0, true⟩], []⟩ 1 2) =
        ⟨[], [⟨1, "p", "d", 1, 1, 1, 0, true⟩], []⟩) :=
  claim_C5_foreign_product_forbidden ⟨[], [⟨1, "p", "d", 1, 1, 1, 0, true⟩], []⟩
    ⟨1, "p", "d", 1, 1, 1, 0, true⟩ ⟨"n", "e", 2, 1⟩ 2
    (by decide) (by decide) (by decide) (by decide)

/-- Witness for C6: grade 6 against an active product. -/
theorem claim_C6_witness :
    create_review ⟨[], [⟨1, "p", "d", 1, 1, 1, 0, true⟩], []⟩ 1 0 ⟨1, none, 6⟩ 2 =
      .error (.http 400 "The grade should be in the range from 1 to 5") ∧
    applyOp ⟨[], [⟨1, "p", "d", 1, 1, 1, 0, true⟩], []⟩
      (create_review ⟨[], [⟨1, "p", "d", 1, 1, 1, 0, true⟩], []⟩ 1 0 ⟨1, none, 6⟩ 2) =
      ⟨[], [⟨1, "p", "d", 1, 1, 1, 0, true⟩], []⟩ :=
  claim_C6_invalid_grade ⟨[], [⟨1, "p", "d", 1, 1, 1, 0, true⟩], []⟩ 1 0
    ⟨1, none, 6⟩ 2 ⟨1, "p", "d", 1, 1, 1, 0, true⟩
    (by decide) (by decide) (by decide) (by decide)

/-- Witness for C7 at a store with one active and one inactive product. -/
theorem claim_C7_witness :
    (∃ k ∈ (⟨[⟨1, "c", none, true⟩],
        [⟨1, "p", "d", 1, 1, 1, 0, true⟩, ⟨2, "q", "e", 1, 1, 1, 0, false⟩],
        []⟩ : DB).categories, k.id = 1 ∧ k.is_active = true) ∧
    ∃ ps, get_products_by_category ⟨[⟨1, "c", none, true⟩],
        [⟨1, "p", "d", 1, 1, 1, 0, true⟩, ⟨2, "q", "e", 1, 1, 1, 0, false⟩],
        []⟩ 1 = .ok ps ∧
      ∀ p, p ∈ ps ↔
        p ∈ (⟨[⟨1, "c", none, true⟩],
          [⟨1, "p", "d", 1, 1, 1, 0, true⟩, ⟨2, "q", "e", 1, 1, 1, 0, false⟩],
          []⟩ : DB).products ∧ p.category_id = 1 ∧ p.is_active = true :=
  ⟨by decide,
    (claim_C7_list_by_category ⟨[⟨1, "c", none, true⟩],
      [⟨1, "p", "d", 1, 1, 1, 0, true⟩, ⟨2, "q", "e", 1, 1, 1, 0, false⟩],
      []⟩ 1).2 (by decide)⟩

/-- Witness for C9: grade 9 against an active product triggers the grade
error, so the product lookup must have succeeded. -/
theorem claim_C9_witness :
    (∃ q ∈ (⟨[], [⟨1, "p", "d", 1, 1, 1, 0, true⟩], []⟩ : DB).products,
      q.id = 1 ∧ q.is_active = true) ∧
    ((9 : Int) < 1 ∨ (9 : Int) > 5) :=
  (claim_C9_product_check_precedes_grade
    ⟨[], [⟨1, "p", "d", 1, 1, 1, 0, true⟩], []⟩ 5 0 ⟨1, none, 9⟩ 2).2 rfl

/-- C8: `update_product_rating` writes 0 to a product with no active
reviews; in particular, soft-deleting the last active review of a product
leaves that product's rating equal to 0. -/
theorem claim_C8_zero_rating_without_reviews (db : DB) :
    (∀ pid db2, (∀ r ∈ db.reviews, r.product_id = pid → r.is_active = false) →
      update_product_rating db pid = .ok db2 →
      ∀ q ∈ db2.products, q.id = pid → q.rating = 0) ∧
    (∀ rid r0 db2, (db.reviews.map (fun r => r.id)).Nodup →
      r0 ∈ db.reviews → r0.id = rid → r0.is_active = true →
      (∀ r ∈ db.reviews, r.is_active = true → r.product_id = r0.product_id →
        r.id = rid) →
      delete_review db rid = .ok db2 →
      ∀ q ∈ db2.products, q.id = r0.product_id → q.rating = 0) := by
  constructor
  · intro pid db2 hno hok q hq hqid
    obtain ⟨hshape, -⟩ := update_product_rating_ok_shape _ _ _ hok
    subst hshape
    rcases List.mem_map.mp hq with ⟨q1, hq1, rfl⟩
    by_cases hb : (q1.id == pid) = true
    · simp only [hb, if_true]
      exact computedRating_eq_zero _ _ hno
    · exfalso
      rw [if_neg hb] at hqid
      exact hb (beq_iff_eq.mpr hqid)
  · intro rid r0 db2 hnd hr0 hr0id hr0act hlast hok q hq hqid
    obtain ⟨r1, hr1, hr1id, hr1act, hshape⟩ := delete_review_ok_shape _ _ _ hok
    have hr01 : r1 = r0 :=
      List.inj_on_of_nodup_map hnd hr1 hr0 (by rw [hr1id, hr0id])
    subst hr01
    subst hshape
    rcases List.mem_map.mp hq with ⟨q1, hq1, rfl⟩
    by_cases hb : (q1.id == r1.product_id) = true
    · simp only [hb, if_true]
      apply computedRating_eq_zero
      intro r hrm hrpid
      rcases List.mem_map.mp hrm with ⟨r2, hr2, rfl⟩
      by_cases hb2 : (r2.id == rid) = true
      · simp only [hb2, if_true]
      · rw [if_neg hb2] at hrpid ⊢
        by_cases hact2 : r2.is_active = true
        · exact absurd (beq_iff_eq.mpr (hlast r2 hr2 hact2 hrpid))  hb2
        · rw [Bool.not_eq_true] at hact2
          exact hact2
    · exfalso
      rw [if_neg hb] at hqid
      exact hb (beq_iff_eq.mpr hqid)

/-- Witness for C8: a store whose single review (grade 3) is deleted; the
product's rating drops to 0. -/
theorem claim_C8_witness :
    delete_review ⟨[], [⟨1, "p", "d", 1, 1, 1, 3, true⟩],
        [⟨1, 2, 1, none, 0, 3, true⟩]⟩ 1 =
      .ok ⟨[], [⟨1, "p", "d", 1, 1, 1, 0, true⟩],
        [⟨1, 2, 1, none, 0, 3, false⟩]⟩ ∧
    ∀ q ∈ (⟨[], [⟨1, "p", "d", 1, 1, 1, 0, true⟩],
        [⟨1, 2, 1, none, 0, 3, false⟩]⟩ : DB).products,
      q.id = 1 → q.rating = 0 :=
  ⟨rfl,
    (claim_C8_zero_rating_without_reviews
      ⟨[], [⟨1, "p", "d", 1, 1, 1, 3, true⟩], [⟨1, 2, 1, none, 0, 3, true⟩]⟩).2
      1 ⟨1, 2, 1, none, 0, 3, true⟩
      ⟨[], [⟨1, "p", "d", 1, 1, 1, 0, true⟩], [⟨1, 2, 1, none, 0, 3, false⟩]⟩
      (by decide) (by decide) (by decide) (by decide) (by decide) rfl⟩

/-- C10: each soft delete flips only the target's `is_active` flag.
`delete_category` leaves products and reviews untouched and rewrites only
the target category's flag; `delete_product` likewise; `delete_review`
additionally rewrites only the reviewed product's rating. -/
theorem claim_C10_soft_delete_frame (db : DB) :
    (∀ cid db2, delete_category db cid = .ok db2 →
      db2.products = db.products ∧ db2.reviews = db.reviews ∧
      List.Forall₂ (fun k k2 => k2.id = k.id ∧ k2.name = k.name ∧
          k2.parent_id = k.parent_id ∧
          k2.is_active = (if k.id = cid then false else k.is_active))
        db.categories db2.categories) ∧
    (∀ pid uid db2, delete_product db pid uid = .ok db2 →
      db2.categories = db.categories ∧ db2.reviews = db.reviews ∧
      List.Forall₂ (fun q q2 => q2.id = q.id ∧ q2.name = q.name ∧
          q2.description = q.description ∧ q2.price = q.price ∧
          q2.category_id = q.category_id ∧ q2.seller_id = q.seller_id ∧
          q2.rating = q.rating ∧
          q2.is_active = (if q.id = pid then false else q.is_active))
        db.products db2.products) ∧
    (∀ rid r0 db2, (db.reviews.map (fun r => r.id)).Nodup →
      r0 ∈ db.reviews → r0.id = rid → r0.is_active = true →
      delete_review db rid = .ok db2 →
      db2.categories = db.categories ∧
      List.Forall₂ (fun r r2 => r2.id = r.id ∧ r2.user_id = r.user_id ∧
          r2.product_id = r.product_id ∧ r2.comment = r.comment ∧
          r2.comment_date = r.comment_date ∧ r2.grade = r.grade ∧
          r2.is_active = (if r.id = rid then false else r.is_active))
        db.reviews db2.reviews ∧
      List.Forall₂ (fun q q2 => q2.id = q.id ∧ q2.name = q.name ∧
          q2.description = q.description ∧ q2.price = q.price ∧
          q2.category_id = q.category_id ∧ q2.seller_id = q.seller_id ∧
          q2.is_active = q.is_active ∧
          (q.id ≠ r0.product_id → q2.rating = q.rating))
        db.products db2.products) := by
  refine ⟨?_, ?_, ?_⟩
  · intro cid db2 hok
    obtain ⟨hshape, -⟩ := delete_category_ok_shape _ _ _ hok
    subst hshape
    refine ⟨rfl, rfl, ?_⟩
    rw [List.forall₂_map_right_iff, List.forall₂_same]
    intro k hk
    by_cases hb : (k.id == cid) = true
    · have heq := beq_iff_eq.mp hb
      simp [hb, heq]
    · rw [Bool.not_eq_true] at hb
      have hne := beq_eq_false_iff_ne.mp hb
      simp [hb, hne]
  · intro pid uid db2 hok
    obtain ⟨hshape, -⟩ := delete_product_ok_shape _ _ _ _ hok
    subst hshape
    refine ⟨rfl, rfl, ?_⟩
    rw [List.forall₂_map_right_iff, List.forall₂_same]
    intro q hq
    by_cases hb : (q.id == pid) = true
    · have heq := beq_iff_eq.mp hb
      simp [hb, heq]
    · rw [Bool.not_eq_true] at hb
      have hne := beq_eq_false_iff_ne.mp hb
      simp [hb, hne]
  · intro rid r0 db2 hnd hr0 hr0id hr0act hok
    obtain ⟨r1, hr1, hr1id, hr1act, hshape⟩ := delete_review_ok_shape _ _ _ hok
    have hr01 : r1 = r0 :=
      List.inj_on_of_nodup_map hnd hr1 hr0 (by rw [hr1id, hr0id])
    subst hr01
    subst hshape
    refine ⟨rfl, ?_, ?_⟩
    · rw [List.forall₂_map_right_iff, List.forall₂_same]
      intro r hr
      by_cases hb : (r.id == rid) = true
      · have heq := beq_iff_eq.mp hb
        simp [hb, heq]
      · rw [Bool.not_eq_true] at hb
        have hne := beq_eq_false_iff_ne.mp hb
        simp [hb, hne]
    · rw [List.forall₂_map_right_iff, List.forall₂_same]
      intro q hq
      by_cases hb : (q.id == r1.product_id) = true
      · have heq := beq_iff_eq.mp hb
        simp [hb, heq]
      · rw [Bool.not_eq_true] at hb
        simp [hb]

/-- Witness for C10 at a concrete two-category store: deleting category 1
touches nothing but its own flag. -/
theorem claim_C10_witness :
    (⟨[⟨1, "a", none, false⟩, ⟨2, "b", none, true⟩], [], []⟩ : DB).products =
      (⟨[⟨1, "a", none, true⟩, ⟨2, "b", none, true⟩], [], []⟩ : DB).products ∧
    (⟨[⟨1, "a", none, false⟩, ⟨2, "b", none, true⟩], [], []⟩ : DB).reviews =
      (⟨[⟨1, "a", none, true⟩, ⟨2, "b", none, true⟩], [], []⟩ : DB).reviews ∧
    List.Forall₂ (fun k k2 => k2.id = k.id ∧ k2.name = k.name ∧
        k2.parent_id = k.parent_id ∧
        k2.is_active = (if k.id = 1 then false else k.is_active))
      (⟨[⟨1, "a", none, true⟩, ⟨2, "b", none, true⟩], [], []⟩ : DB).categories
      (⟨[⟨1, "a", none, false⟩, ⟨2, "b", none, true⟩], [], []⟩ : DB).categories :=
  (claim_C10_soft_delete_frame
      ⟨[⟨1, "a", none, true⟩, ⟨2, "b", none, true⟩], [], []⟩).1 1
    ⟨[⟨1, "a", none, false⟩, ⟨2, "b", none, true⟩], [], []⟩ rfl

/-- Transfer of the self-parent property along unchanged category tables. -/
theorem selfParentFree_of_categories_eq {db db2 : DB}
    (h : db2.categories = db.categories) (hsp : selfParentFree db) :
    selfParentFree db2 := by
  unfold selfParentFree at hsp ⊢
  rw [h]
  exact hsp

/-- C2 counterexample: soft-deleting a category that is the parent of an
active category leaves that child pointing at an inactive parent, so the
full category invariant is not preserved by `delete_category`. -/
theorem claim_C2_counterexample :
    categoryInv ⟨[⟨1, "a", none, true⟩, ⟨2, "b", some 1, true⟩], [], []⟩ ∧
    delete_category ⟨[⟨1, "a", none, true⟩, ⟨2, "b", some 1, true⟩], [], []⟩ 1 =
      .ok ⟨[⟨1, "a", none, false⟩, ⟨2, "b", some 1, true⟩], [], []⟩ ∧
    ¬ categoryInv ⟨[⟨1, "a", none, false⟩, ⟨2, "b", some 1, true⟩], [], []⟩ :=
  ⟨by decide, rfl, by decide⟩

/-- C2 (amended): every operation preserves the no-self-parent half of the
category invariant, and category create/update accept a given parent id only
when a currently-active category carries it (update additionally rejects the
target itself); the active-parent half, however, is not preserved by
`delete_category` (no cascade - see the counterexample). -/
theorem claim_C2_self_parent_preserved (db : DB) (hsp : selfParentFree db) :
    (∀ newId c db2, (∀ k ∈ db.categories, k.id ≠ newId) →
      create_category db newId c = .ok db2 →
      selfParentFree db2 ∧
      (∀ pid, c.parent_id = some pid →
        ∃ k ∈ db.categories, k.id = pid ∧ k.is_active = true)) ∧
    (∀ cid c db2, update_category db cid c = .ok db2 →
      selfParentFree db2 ∧
      (∀ pid, c.parent_id = some pid →
        pid ≠ cid ∧ ∃ k ∈ db.categories, k.id = pid ∧ k.is_active = true)) ∧
    (∀ cid db2, delete_category db cid = .ok db2 → selfParentFree db2) ∧
    (∀ newId p uid db2, create_product db newId p uid = .ok db2 →
      selfParentFree db2) ∧
    (∀ pid p uid db2, update_product db pid p uid = .ok db2 →
      selfParentFree db2) ∧
    (∀ pid uid db2, delete_product db pid uid = .ok db2 →
      selfParentFree db2) ∧
    (∀ newId now rv uid db2, create_review db newId now rv uid = .ok db2 →
      selfParentFree db2) ∧
    (∀ rid db2, delete_review db rid = .ok db2 → selfParentFree db2) := by
  refine ⟨?_, ?_, ?_, ?_, ?_, ?_, ?_, ?_⟩
  · intro newId c db2 hfresh hok
    obtain ⟨hshape, hparent⟩ := create_category_ok_shape _ _ _ _ hok
    subst hshape
    refine ⟨?_, hparent⟩
    intro k hk pid hpid
    rcases List.mem_append.mp hk with hold | hnew
    · exact hsp k hold pid hpid
    · rcases List.mem_singleton.mp hnew with rfl
      obtain ⟨par, hpar, hparid, -⟩ := hparent pid hpid
      intro hcontra
      exact hfresh par hpar (hparid.trans hcontra)
  · intro cid c db2 hok
    obtain ⟨hshape, -, hparent⟩ := update_category_ok_shape _ _ _ _ hok
    subst hshape
    refine ⟨?_, hparent⟩
    intro k hk pid hpid
    rcases List.mem_map.mp hk with ⟨k1, hk1, rfl⟩
    by_cases hb : (k1.id == cid) = true
    · have hkid := beq_iff_eq.mp hb
      rw [if_pos hb] at hpid ⊢
      dsimp only at hpid ⊢
      by_cases hg : c.parent_id_given = true
      · rw [if_pos hg] at hpid
        rw [hkid]
        exact (hparent pid hpid).1
      · rw [if_neg hg] at hpid
        exact hsp k1 hk1 pid hpid
    · rw [if_neg hb] at hpid ⊢
      exact hsp k1 hk1 pid hpid
  · intro cid db2 hok
    obtain ⟨hshape, -⟩ := delete_category_ok_shape _ _ _ hok
    subst hshape
    intro k hk pid hpid
    rcases List.mem_map.mp hk with ⟨k1, hk1, rfl⟩
    by_cases hb : (k1.id == cid) = true
    · rw [if_pos hb] at hpid ⊢
      dsimp only at hpid ⊢
      exact hsp k1 hk1 pid hpid
    · rw [if_neg hb] at hpid ⊢
      exact hsp k1 hk1 pid hpid
  · intro newId p uid db2 hok
    obtain ⟨hshape, -⟩ := create_product_ok_shape _ _ _ _ _ hok
    subst hshape
    exact selfParentFree_of_categories_eq rfl hsp
  · intro pid p uid db2 hok
    obtain ⟨hshape, -⟩ := update_product_ok_shape _ _ _ _ _ hok
    subst hshape
    exact selfParentFree_of_categories_eq rfl hsp
  · intro pid uid db2 hok
    obtain ⟨hshape, -⟩ := delete_product_ok_shape _ _ _ _ hok
    subst hshape
    exact selfParentFree_of_categories_eq rfl hsp
  · intro newId now rv uid db2 hok
    obtain ⟨hshape, -⟩ := create_review_ok_shape _ _ _ _ _ _ hok
    subst hshape
    exact selfParentFree_of_categories_eq rfl hsp
  · intro rid db2 hok
    obtain ⟨r1, -, -, -, hshape⟩ := delete_review_ok_shape _ _ _ hok
    subst hshape
    exact selfParentFree_of_categories_eq rfl hsp

/-- Witness for C2 (amended): re-parenting category 2 under active category
1 succeeds and keeps the store free of self-parenting. -/
theorem claim_C2_witness :
    selfParentFree ⟨[⟨1, "a", none, true⟩, ⟨2, "b", some 1, true⟩], [], []⟩ ∧
    ∀ pid, (⟨"b", some 1, true⟩ : CategoryCreate).parent_id = some pid →
      pid ≠ 2 ∧
      ∃ k ∈ (⟨[⟨1, "a", none, true⟩, ⟨2, "b", none, true⟩], [], []⟩ : DB).categories,
        k.id = pid ∧ k.is_active = true :=
  (claim_C2_self_parent_preserved
      ⟨[⟨1, "a", none, true⟩, ⟨2, "b", none, true⟩], [], []⟩ (by decide)).2.1
    2 ⟨"b", some 1, true⟩
    ⟨[⟨1, "a", none, true⟩, ⟨2, "b", some 1, true⟩], [], []⟩ rfl

/-- C3 counterexample: the `update_product` target lookup does not filter by
`is_active`, so updating a soft-deleted product succeeds instead of failing
with the not-found error. -/
theorem claim_C3_counterexample :
    update_product ⟨[⟨1, "c", none, true⟩],
        [⟨1, "p", "d", 5, 1, 10, 0, false⟩], []⟩ 1 ⟨"p2", "d2", 6, 1⟩ 10 =
      .ok ⟨[⟨1, "c", none, true⟩], [⟨1, "p2", "d2", 6, 1, 10, 0, false⟩], []⟩ ∧
    update_product ⟨[⟨1, "c", none, true⟩],
        [⟨1, "p", "d", 5, 1, 10, 0, false⟩], []⟩ 1 ⟨"p2", "d2", 6, 1⟩ 10 ≠
      .error (.http 404 "Product not found") :=
  ⟨rfl, fun h => Except.noConfusion h⟩

/-- C3 (amended): soft-deleted entities are invisible to every validation
lookup except the `update_product` target lookup.  A category with no active
row cannot be used as a parent (create/update) nor as a product's category
(create/update product); inactive products are not found by review creation
or product deletion; inactive categories and reviews are not found by their
update/delete handlers.  `update_product`, however, looks its target up by
id only: updating a soft-deleted product does not fail with 404 and, for the
owner with a valid category, succeeds. -/
theorem claim_C3_soft_deleted_invisible (db : DB) :
    (∀ newId c pid db2, c.parent_id = some pid →
      (¬ ∃ k ∈ db.categories, k.id = pid ∧ k.is_active = true) →
      create_category db newId c ≠ .ok db2) ∧
    (∀ cid c pid db2, c.parent_id = some pid →
      (¬ ∃ k ∈ db.categories, k.id = pid ∧ k.is_active = true) →
      update_category db cid c ≠ .ok db2) ∧
    (∀ newId p uid db2,
      (¬ ∃ k ∈ db.categories, k.id = p.category_id ∧ k.is_active = true) →
      create_product db newId p uid ≠ .ok db2) ∧
    (∀ pid p uid db2,
      (¬ ∃ k ∈ db.categories, k.id = p.category_id ∧ k.is_active = true) →
      update_product db pid p uid ≠ .ok db2) ∧
    (∀ newId now rv uid,
      (¬ ∃ q ∈ db.products, q.id = rv.product_id ∧ q.is_active = true) →
      create_review db newId now rv uid =
        .error (.http 404 "Product not found")) ∧
    (∀ pid uid, (¬ ∃ q ∈ db.products, q.id = pid ∧ q.is_active = true) →
      delete_product db pid uid = .error (.http 404 "Product not found")) ∧
    (∀ cid c, (¬ ∃ k ∈ db.categories, k.id = cid ∧ k.is_active = true) →
      update_category db cid c = .error (.http 404 "Category not found")) ∧
    (∀ cid, (¬ ∃ k ∈ db.categories, k.id = cid ∧ k.is_active = true) →
      delete_category db cid = .error (.http 404 "Category not found")) ∧
    (∀ rid, (¬ ∃ r ∈ db.reviews, r.id = rid ∧ r.is_active = true) →
      delete_review db rid = .error (.http 404 "Review not found")) ∧
    (∀ p payload, (db.products.map (fun q => q.id)).Nodup → p ∈ db.products →
      p.is_active = false →
      (∃ k ∈ db.categories, k.id = payload.category_id ∧ k.is_active = true) →
      ∃ db2, update_product db p.id payload p.seller_id = .ok db2) := by
  have hnone : ∀ (l : List Category) (cid : Nat),
      (¬ ∃ k ∈ l, k.id = cid ∧ k.is_active = true) →
      l.find? (fun k => k.id == cid && k.is_active) = none := by
    intro l cid hno
    rw [List.find?_eq_none]
    intro k hk hpred
    simp only [Bool.and_eq_true, beq_iff_eq] at hpred
    exact hno ⟨k, hk, hpred.1, hpred.2⟩
  refine ⟨?_, ?_, ?_, ?_, ?_, ?_, ?_, ?_, ?_, ?_⟩
  · intro newId c pid db2 hpid hno hok
    obtain ⟨-, hparent⟩ := create_category_ok_shape _ _ _ _ hok
    exact hno (hparent pid hpid)
  · intro cid c pid db2 hpid hno hok
    obtain ⟨-, -, hparent⟩ := update_category_ok_shape _ _ _ _ hok
    exact hno (hparent pid hpid).2
  · intro newId p uid db2 hno hok
    obtain ⟨-, hcat⟩ := create_product_ok_shape _ _ _ _ _ hok
    exact hno hcat
  · intro pid p uid db2 hno hok
    obtain ⟨-, hcat, -⟩ := update_product_ok_shape _ _ _ _ _ hok
    exact hno hcat
  · intro newId now rv uid hno
    have hn : db.products.find?
        (fun q => q.id == rv.product_id && q.is_active) = none := by
      rw [List.find?_eq_none]
      intro q hq hpred
      simp only [Bool.and_eq_true, beq_iff_eq] at hpred
      exact hno ⟨q, hq, hpred.1, hpred.2⟩
    unfold create_review
    rw [hn]
  · intro pid uid hno
    have hn : db.products.find? (fun q => q.id == pid && q.is_active) = none := by
      rw [List.find?_eq_none]
      intro q hq hpred
      simp only [Bool.and_eq_true, beq_iff_eq] at hpred
      exact hno ⟨q, hq, hpred.1, hpred.2⟩
    unfold delete_product
    rw [hn]
  · intro cid c hno
    unfold update_category
    rw [hnone db.categories cid hno]
  · intro cid hno
    unfold delete_category
    rw [hnone db.categories cid hno]
  · intro rid hno
    have hn : db.reviews.find? (fun r => r.id == rid && r.is_active) = none := by
      rw [List.find?_eq_none]
      intro r hr hpred
      simp only [Bool.and_eq_true, beq_iff_eq] at hpred
      exact hno ⟨r, hr, hpred.1, hpred.2⟩
    unfold delete_review
    rw [hn]
  · intro p payload hnd hp hinact hcat
    have hfu : db.products.find? (fun q => q.id == p.id) = some p :=
      find?_eq_some_of_unique_key (fun q => q.id) _ db.products hnd p hp
        (by simp) (fun q hq => beq_iff_eq.mp hq)
    obtain ⟨k, hk, hkid, hkact⟩ := hcat
    obtain ⟨k0, hfc⟩ : ∃ k0, db.categories.find?
        (fun x => x.id == payload.category_id && x.is_active) = some k0 :=
      Option.isSome_iff_exists.mp
        (List.find?_isSome.mpr ⟨k, hk, by simp [hkid, hkact]⟩)
    refine ⟨{ db with products := db.products.map (fun q =>
      if q.id == p.id then
        { q with
          name := payload.name
          description := payload.description
          price := payload.price
          category_id := payload.category_id }
      else q) }, ?_⟩
    unfold update_product
    rw [hfu]
    dsimp only
    have hb : (p.seller_id != p.seller_id) = false := bne_self_eq_false _
    rw [hb]
    simp only [Bool.false_eq_true, if_false]
    rw [hfc]

/-- Witness for C3 (amended): the owner updates their soft-deleted product
with a valid category and the call succeeds (no 404). -/
theorem claim_C3_witness :
    ∃ db2, update_product ⟨[⟨1, "c", none, true⟩],
        [⟨1, "p", "d", 5, 1, 10, 0, false⟩], []⟩ 1 ⟨"p2", "d2", 6, 1⟩ 10 =
      .ok db2 :=
  (claim_C3_soft_deleted_invisible ⟨[⟨1, "c", none, true⟩],
      [⟨1, "p", "d", 5, 1, 10, 0, false⟩], []⟩).2.2.2.2.2.2.2.2.2
    ⟨1, "p", "d", 5, 1, 10, 0, false⟩ ⟨"p2", "d2", 6, 1⟩
    (by decide) (by decide) (by decide) (by decide)

/-- C1: on a well-formed store satisfying the rating invariant, every
operation of the system that completes successfully re-establishes the
invariant: each product's rating is the mean grade of its active reviews, or
0 when it has none.  Category operations and product update/delete never
touch reviews or ratings; product creation starts at rating 0 with no
reviews; review creation and deletion recompute the reviewed product's
rating from its active reviews. -/
theorem claim_C1_rating_invariant (db : DB) (hwf : db.wf)
    (hinv : ratingInv db) :
    (∀ newId c db2, create_category db newId c = .ok db2 → ratingInv db2) ∧
    (∀ cid c db2, update_category db cid c = .ok db2 → ratingInv db2) ∧
    (∀ cid db2, delete_category db cid = .ok db2 → ratingInv db2) ∧
    (∀ newId p uid db2, (∀ q ∈ db.products, q.id ≠ newId) →
      create_product db newId p uid = .ok db2 → ratingInv db2) ∧
    (∀ pid p uid db2, update_product db pid p uid = .ok db2 → ratingInv db2) ∧
    (∀ pid uid db2, delete_product db pid uid = .ok db2 → ratingInv db2) ∧
    (∀ newId now rv uid db2, create_review db newId now rv uid = .ok db2 →
      ratingInv db2) ∧
    (∀ rid db2, delete_review db rid = .ok db2 → ratingInv db2) := by
  refine ⟨?_, ?_, ?_, ?_, ?_, ?_, ?_, ?_⟩
  · intro newId c db2 hok
    obtain ⟨hshape, -⟩ := create_category_ok_shape _ _ _ _ hok
    subst hshape
    exact hinv
  · intro cid c db2 hok
    obtain ⟨hshape, -, -⟩ := update_category_ok_shape _ _ _ _ hok
    subst hshape
    exact hinv
  · intro cid db2 hok
    obtain ⟨hshape, -⟩ := delete_category_ok_shape _ _ _ hok
    subst hshape
    exact hinv
  · intro newId p uid db2 hfresh hok
    obtain ⟨hshape, -⟩ := create_product_ok_shape _ _ _ _ _ hok
    subst hshape
    intro q hq
    rcases List.mem_append.mp hq with hold | hnew
    · exact hinv q hold
    · rcases List.mem_singleton.mp hnew with rfl
      show (0 : Rat) = computedRating db.reviews newId
      symm
      apply computedRating_eq_zero
      intro r hr hrpid
      exfalso
      obtain ⟨q1, hq1, hq1id⟩ := hwf.2.2.2 r hr
      exact hfresh q1 hq1 (hq1id.trans hrpid)
  · intro pid p uid db2 hok
    obtain ⟨hshape, -, -⟩ := update_product_ok_shape _ _ _ _ _ hok
    subst hshape
    apply ratingInv_map_products db hinv
    intro q
    by_cases hb : (q.id == pid) = true
    · rw [if_pos hb]; exact ⟨rfl, rfl⟩
    · rw [if_neg hb]; exact ⟨rfl, rfl⟩
  · intro pid uid db2 hok
    obtain ⟨hshape, -⟩ := delete_product_ok_shape _ _ _ _ hok
    subst hshape
    apply ratingInv_map_products db hinv
    intro q
    by_cases hb : (q.id == pid) = true
    · rw [if_pos hb]; exact ⟨rfl, rfl⟩
    · rw [if_neg hb]; exact ⟨rfl, rfl⟩
  · intro newId now rv uid db2 hok
    obtain ⟨hshape, -, -⟩ := create_review_ok_shape _ _ _ _ _ _ hok
    subst hshape
    intro q2 hq2
    rcases List.mem_map.mp hq2 with ⟨q, hq, rfl⟩
    by_cases hb : (q.id == rv.product_id) = true
    · have hqid := beq_iff_eq.mp hb
      simp only [hb, if_true]
      rw [hqid]
    · rw [if_neg hb]
      have hne : rv.product_id ≠ q.id := fun hcontra =>
        hb (beq_iff_eq.mpr hcontra.symm)
      dsimp only
      rw [computedRating_congr q.id (activeGrades_append_single db.reviews
        ⟨newId, uid, rv.product_id, rv.comment, now, rv.grade, true⟩ q.id hne)]
      exact hinv q hq
  · intro rid db2 hok
    obtain ⟨r1, hr1, hr1id, hr1act, hshape⟩ := delete_review_ok_shape _ _ _ hok
    subst hshape
    intro q2 hq2
    rcases List.mem_map.mp hq2 with ⟨q, hq, rfl⟩
    by_cases hb : (q.id == r1.product_id) = true
    · have hqid := beq_iff_eq.mp hb
      simp only [hb, if_true]
      rw [hqid]
    · rw [if_neg hb]
      have hne : q.id ≠ r1.product_id := fun hc => hb (beq_iff_eq.mpr hc)
      dsimp only
      have hall : ∀ r ∈ db.reviews, r.id = rid → r.product_id = r1.product_id := by
        intro r hr hid
        have hrr : r = r1 :=
          List.inj_on_of_nodup_map hwf.2.2.1 hr hr1 (by rw [hid, hr1id])
        rw [hrr]
      rw [computedRating_congr q.id (activeGrades_deactivate db.reviews rid
        r1.product_id q.id hall hne)]
      exact hinv q hq

/-- Witness for C1: a successful product update on a store satisfying the
invariant leaves the invariant intact (ratings untouched). -/
theorem claim_C1_witness :
    ratingInv ⟨[⟨1, "c", none, true⟩], [⟨1, "p2", "d2", 2, 1, 1, 0, true⟩],
      []⟩ :=
  (claim_C1_rating_invariant
      ⟨[⟨1, "c", none, true⟩], [⟨1, "p", "d", 1, 1, 1, 0, true⟩], []⟩
      (by decide) (by decide)).2.2.2.2.1 1 ⟨"p2", "d2", 2, 1⟩ 1
    ⟨[⟨1, "c", none, true⟩], [⟨1, "p2", "d2", 2, 1, 1, 0, true⟩], []⟩ rfl
